import Mathlib

/-!
Shallow embedding of `src/circuit_builder.rs` from the `plonk` repository:
the circuit-compilation and public-input-binding layer of a PLONK-style
proof system.  Pure code (the `From` conversions, `build_pi`) is translated
directly; the external collaborators (Composer, commitment scheme, prover
and verifier engines, living elsewhere in the repository) are modelled as
abstract capability records, over which the orchestration methods
(`compile`, `gen_proof`, `verify_proof`) are defined exactly following the
Rust control flow.  Rust panics (`expect`, out-of-bounds indexing) are made
explicit in the result types.
-/

namespace Plonk

/-- Order of the BLS12-381 scalar field (the base field of this layer). -/
def blsR : Nat :=
  52435875175126190479447740508185965837690552500527637822603658699938581184513

/-- The type `BlsScalar`: an element of the BLS12-381 scalar field. -/
abbrev BlsScalar := ZMod blsR

/-- Order of the JubJub (embedded curve) scalar field. -/
def jubjubR : Nat :=
  6554484396890773809930967563523245729705921265872317281365359162392183254199

/-- The type `JubJubScalar`: an element of the embedded curve's scalar field. -/
abbrev JubJubScalar := ZMod jubjubR

/-- The type `JubJubAffine`: an affine point of the embedded curve, as a pair of
base-field coordinates (`get_x`, `get_y` in the source). -/
structure JubJubAffine where
  get_x : BlsScalar
  get_y : BlsScalar

/-- Canonical embedding of a JubJub scalar into the base field
(`impl From<JubJubScalar> for BlsScalar` in the dusk libraries): the
canonical integer representative, cast into the base field. -/
def jubjubToBls (s : JubJubScalar) : BlsScalar := (s.val : BlsScalar)

/-- The type `PublicInputValue`: a PLONK circuit public input converted into its
`&[BlsScalar]` representation (`pub struct PublicInputValue(pub(crate) Vec<BlsScalar>)`). -/
structure PublicInputValue where
  scalars : List BlsScalar

/-- Rust `impl From<BlsScalar> for PublicInputValue`: `Self(vec![scalar])`. -/
def pivFromBlsScalar (scalar : BlsScalar) : PublicInputValue :=
  ⟨[scalar]⟩

/-- Rust `impl From<JubJubScalar> for PublicInputValue`: `Self(vec![scalar.into()])`. -/
def pivFromJubJubScalar (scalar : JubJubScalar) : PublicInputValue :=
  ⟨[jubjubToBls scalar]⟩

/-- Rust `impl From<JubJubAffine> for PublicInputValue`:
`Self(vec![point.get_x(), point.get_y()])`. -/
def pivFromJubJubAffine (point : JubJubAffine) : PublicInputValue :=
  ⟨[point.get_x, point.get_y]⟩

/-- Flattening of a declared public-input value list into scalars, in
declaration order: `pub_input_values.iter().map(|pub_input| pub_input.0.clone()).flatten()`. -/
def flattenValues (values : List PublicInputValue) : List BlsScalar :=
  (values.map PublicInputValue.scalars).flatten

/-- One scatter step of `build_pi`: `pi[*pos] = -value;`.  Rust's
`IndexMut` panics when `pos` is out of bounds, modelled by `none`. -/
def scatterStep (pi : List BlsScalar) (vp : BlsScalar × Nat) :
    Option (List BlsScalar) :=
  if vp.2 < pi.length then some (pi.set vp.2 (-vp.1)) else none

/-- Method `Circuit::build_pi` (default trait method): allocate
`vec![BlsScalar::zero(); Self::TRIM_SIZE]`, then zip the flattened values
with the positions and write each negated value at its position.
`trimSize` stands for the associated constant `Self::TRIM_SIZE`.
The result is `none` exactly when the Rust code panics on an
out-of-bounds index. -/
def build_pi (trimSize : Nat) (pub_input_values : List PublicInputValue)
    (pub_input_pos : List Nat) : Option (List BlsScalar) :=
  ((flattenValues pub_input_values).zip pub_input_pos).foldlM scatterStep
    (List.replicate trimSize (0 : BlsScalar))

/-- Three-valued outcome of a Rust computation that may return `Ok`,
return `Err`, or panic (`expect` on a missing key, out-of-bounds
indexing).  `Result<T, Error>` values that cannot panic are embedded with
`Except` instead. -/
inductive RResult (ε α : Type) where
  | ok (a : α)
  | err (e : ε)
  | panicked (msg : String)
deriving DecidableEq, Repr

section Capabilities

/- Type parameters of the abstract external collaborators:
`σ` the circuit instance type (`Self` in the trait), `χ` the Composer
state, `ε` the error type (`crate::error::Error`), `PK`/`VK` the
prover/verifier keys, `CK`/`OK` the committer/opener keys from trimming,
`Pf` proofs, `PP` the public parameters, `τ` transcript tags. -/
/-- Modelled from the spec: the external collaborators of this layer,
whose code lives elsewhere in the repository (`constraint_system`,
`commitment_scheme::kzg10`, `proof_system`) and is not part of the
analysed source.  Per the spec these are opaque capabilities:
`StandardComposer::new` and its `pi_positions` query, `PublicParameters::trim`,
`Prover::preprocess` (which stores `prover_key : Option<ProverKey>` in the
prover), `Verifier::preprocess` (likewise for `verifier_key`),
`Prover::prove` (keyed by the prover's transcript tag and attached
`ProverKey`), and `Verifier::verify` (keyed by the verifier's transcript
tag, its attached `VerifierKey`, the opener key, the proof and the flat
public-input vector), each returning `Result` (no panic). -/
structure Extern (χ ε PK VK CK OK Pf PP τ : Type) where
  emptyComposer : χ
  pi_positions : χ → List Nat
  trim : PP → Nat → Except ε (CK × OK)
  proverPreprocess : χ → CK → Except ε (Option PK)
  verifierPreprocess : χ → CK → Except ε (Option VK)
  prove : τ → χ → PK → CK → Except ε Pf
  verify : τ → VK → OK → Pf → List BlsScalar → Except ε Unit

/-- The `Circuit` trait data: the associated constants `TRANSCRIPT_INIT`
and `TRIM_SIZE`, and the required method
`fn gadget(&mut self, composer: &mut StandardComposer) -> Result<(), Error>`,
modelled as a function from the circuit instance and the composer to the
updated pair (both are taken by `&mut` in Rust). -/
structure Circuit (σ χ ε τ : Type) where
  TRANSCRIPT_INIT : τ
  TRIM_SIZE : Nat
  gadget : σ → χ → Except ε (σ × χ)

variable {σ χ ε PK VK CK OK Pf PP τ : Type}

/-- Method `Circuit::compile` (default trait method), following the Rust control
flow exactly: trim the public parameters to `TRIM_SIZE`; run `gadget` on a
fresh prover-side composer; read `pi_positions` from that (prover-side)
composer; preprocess the prover; run `gadget` again on a fresh
verifier-side composer (note the circuit instance was mutated by the
first pass); preprocess the verifier; then `expect` both keys (a missing
key is a panic, not an `Err`) and return the triple. -/
def compile (E : Extern χ ε PK VK CK OK Pf PP τ)
    (C : Circuit σ χ ε τ) (c : σ) (pub_params : PP) :
    RResult ε (PK × VK × List Nat) :=
  match E.trim pub_params C.TRIM_SIZE with
  | .error e => .err e
  | .ok (ck, _) =>
    match C.gadget c E.emptyComposer with
    | .error e => .err e
    | .ok (c₁, proverCs) =>
      match E.proverPreprocess proverCs ck with
      | .error e => .err e
      | .ok pkOpt =>
        match C.gadget c₁ E.emptyComposer with
        | .error e => .err e
        | .ok (_, verifierCs) =>
          match E.verifierPreprocess verifierCs ck with
          | .error e => .err e
          | .ok vkOpt =>
            match pkOpt with
            | none => .panicked "Unexpected error. Missing ProverKey in compilation"
            | some pk =>
              match vkOpt with
              | none => .panicked "Unexpected error. Missing VerifierKey in compilation"
              | some vk => .ok (pk, vk, E.pi_positions proverCs)

/-- The public-input position list observed by the first
(prover-side) gadget pass of `compile`: run `gadget` on a fresh composer
and query `pi_positions`. -/
def proverPassPositions (E : Extern χ ε PK VK CK OK Pf PP τ)
    (C : Circuit σ χ ε τ) (c : σ) : Except ε (List Nat) :=
  (C.gadget c E.emptyComposer).map fun r => E.pi_positions r.2

/-- The public-input position list observed by the second
(verifier-side) gadget pass of `compile`: run `gadget` on a fresh
composer starting from the circuit instance as mutated by the first
pass, and query `pi_positions` on the resulting composer. -/
def verifierPassPositions (E : Extern χ ε PK VK CK OK Pf PP τ)
    (C : Circuit σ χ ε τ) (c : σ) : Except ε (List Nat) :=
  match C.gadget c E.emptyComposer with
  | .error e => .error e
  | .ok (c₁, _) => (C.gadget c₁ E.emptyComposer).map fun r => E.pi_positions r.2

/-- Method `Circuit::gen_proof` (default trait method): trim the public
parameters to `TRIM_SIZE`; build one fresh prover keyed by
`TRANSCRIPT_INIT`; run `gadget` once against its composer; attach the
supplied `ProverKey` (`prover.prover_key = Some(prover_key.clone())`);
delegate to `prove`.  No panic source, so `Except` suffices. -/
def gen_proof (E : Extern χ ε PK VK CK OK Pf PP τ)
    (C : Circuit σ χ ε τ) (c : σ) (pub_params : PP)
    (prover_key : PK) : Except ε Pf :=
  match E.trim pub_params C.TRIM_SIZE with
  | .error e => .error e
  | .ok (ck, _) =>
    match C.gadget c E.emptyComposer with
    | .error e => .error e
    | .ok (_, cs) => E.prove C.TRANSCRIPT_INIT cs prover_key ck

/-- Method `Circuit::verify_proof` (default trait method): trim the public
parameters to `TRIM_SIZE` keeping the opener key; build a fresh verifier
keyed by `TRANSCRIPT_INIT` with the supplied `VerifierKey` attached;
evaluate `build_pi` (whose out-of-bounds panic propagates) and delegate
to `verify`. -/
def verify_proof (E : Extern χ ε PK VK CK OK Pf PP τ)
    (C : Circuit σ χ ε τ) (c : σ) (pub_params : PP)
    (verifier_key : VK) (proof : Pf) (pub_inputs_values : List PublicInputValue)
    (pub_inputs_positions : List Nat) : RResult ε Unit :=
  match E.trim pub_params C.TRIM_SIZE with
  | .error e => .err e
  | .ok (_, vkOpener) =>
    match build_pi C.TRIM_SIZE pub_inputs_values pub_inputs_positions with
    | none => .panicked "index out of bounds"
    | some pi =>
      match E.verify C.TRANSCRIPT_INIT verifier_key vkOpener proof pi with
      | .error e => .err e
      | .ok _ => .ok ()

end Capabilities

/-- A trivial concrete instantiation of the external capabilities on unit
types, in which every external call succeeds and the composer always
reports position list `[0]`.  Used to exercise the orchestration methods
on closed inputs. -/
def trivExtern : Extern Unit Unit Unit Unit Unit Unit Unit Unit Unit where
  emptyComposer := ()
  pi_positions := fun _ => [0]
  trim := fun _ _ => .ok ((), ())
  proverPreprocess := fun _ _ => .ok (some ())
  verifierPreprocess := fun _ _ => .ok (some ())
  prove := fun _ _ _ _ => .ok ()
  verify := fun _ _ _ _ _ => .ok ()

/-- A trivial circuit over the trivial capabilities: `TRIM_SIZE = 1` and a
gadget that touches nothing. -/
def trivCircuit : Circuit Unit Unit Unit Unit where
  TRANSCRIPT_INIT := ()
  TRIM_SIZE := 1
  gadget := fun s cs => .ok (s, cs)

/-- Concrete capabilities whose composer state is its own position list
(`pi_positions` is the identity); every external call succeeds. -/
def driftExtern : Extern (List Nat) Unit Unit Unit Unit Unit Unit Unit Unit where
  emptyComposer := []
  pi_positions := fun cs => cs
  trim := fun _ _ => .ok ((), ())
  proverPreprocess := fun _ _ => .ok (some ())
  verifierPreprocess := fun _ _ => .ok (some ())
  prove := fun _ _ _ _ => .ok ()
  verify := fun _ _ _ _ _ => .ok ()

/-- A circuit instance over `Nat` whose gadget mutates the circuit state
(`&mut self` in Rust) and records a state-dependent public-input
position, so that the two gadget passes of `compile` observe different
position lists. -/
def driftCircuit : Circuit Nat (List Nat) Unit Unit where
  TRANSCRIPT_INIT := ()
  TRIM_SIZE := 4
  gadget := fun n _ => .ok (n + 1, [n])

section HelperLemmas

/-- Helper: when every paired position is in bounds, the scatter fold of
`build_pi` completes, preserves the vector length, and leaves every index
outside the paired positions untouched. -/
theorem scatter_some_of_bounds (pairs : List (BlsScalar × Nat)) :
    ∀ pi : List BlsScalar, (∀ vp ∈ pairs, vp.2 < pi.length) →
      ∃ v, pairs.foldlM scatterStep pi = some v ∧ v.length = pi.length ∧
        ∀ i : Nat, i ∉ pairs.map Prod.snd → v[i]? = pi[i]? := by
  induction pairs with
  | nil => exact fun pi _ => ⟨pi, rfl, rfl, fun _ _ => rfl⟩
  | cons a rest ih =>
    intro pi h
    have ha : a.2 < pi.length := h a (List.mem_cons_self a rest)
    obtain ⟨v, hv, hlen, huntouched⟩ := ih (pi.set a.2 (-a.1)) (fun vp hvp => by
      rw [List.length_set]; exact h vp (List.mem_cons_of_mem _ hvp))
    refine ⟨v, ?_, by rw [hlen, List.length_set], ?_⟩
    · simp only [List.foldlM_cons, scatterStep, ha, if_pos]
      exact hv
    · intro i hi
      rw [List.map_cons, List.mem_cons, not_or] at hi
      rw [huntouched i hi.2, List.getElem?_set_ne (fun hcontra => hi.1 hcontra.symm)]

/-- Helper: when the paired positions are in bounds and pairwise
distinct, the scatter fold writes the negation of each paired value at
its paired position. -/
theorem scatter_value_of_nodup (pairs : List (BlsScalar × Nat)) :
    ∀ pi : List BlsScalar, (∀ vp ∈ pairs, vp.2 < pi.length) →
      (pairs.map Prod.snd).Nodup →
      ∃ v, pairs.foldlM scatterStep pi = some v ∧
        ∀ vp ∈ pairs, v[vp.2]? = some (-vp.1) := by
  induction pairs with
  | nil => exact fun pi _ _ => ⟨pi, rfl, by simp⟩
  | cons a rest ih =>
    intro pi h hnd
    have ha : a.2 < pi.length := h a (List.mem_cons_self a rest)
    rw [List.map_cons, List.nodup_cons] at hnd
    have hbound : ∀ vp ∈ rest, vp.2 < (pi.set a.2 (-a.1)).length := fun vp hvp => by
      rw [List.length_set]; exact h vp (List.mem_cons_of_mem _ hvp)
    obtain ⟨v, hv, hval⟩ := ih (pi.set a.2 (-a.1)) hbound hnd.2
    obtain ⟨w, hw, _, huntouched⟩ := scatter_some_of_bounds rest (pi.set a.2 (-a.1)) hbound
    have hvw : v = w := by rw [hv] at hw; exact Option.some_injective _ hw
    refine ⟨v, ?_, ?_⟩
    · simp only [List.foldlM_cons, scatterStep, ha, if_pos]
      exact hv
    · intro vp hvp
      rcases List.mem_cons.mp hvp with heq | hmem
      · subst heq
        rw [hvw, huntouched vp.2 hnd.1, List.getElem?_set_self ha]
      · exact hval vp hmem

/-- Helper: zipping only consumes the common prefix, so truncating both
lists to the shorter length leaves the zip unchanged. -/
theorem zip_take_min (l : List BlsScalar) :
    ∀ l' : List Nat, (l.take (min l.length l'.length)).zip
      (l'.take (min l.length l'.length)) = l.zip l' := by
  induction l with
  | nil => intro l'; simp
  | cons a l ih =>
    intro l'
    cases l' with
    | nil => simp
    | cons b l' =>
      simp only [List.length_cons, Nat.succ_min_succ, List.take_succ_cons,
        List.zip_cons_cons, ih l']

/-- Helper: the second components of a zip form a sublist of the second
input list. -/
theorem map_snd_zip_sublist (l : List BlsScalar) :
    ∀ l' : List Nat, ((l.zip l').map Prod.snd).Sublist l' := by
  induction l with
  | nil => intro l'; simp
  | cons a l ih =>
    intro l'
    cases l' with
    | nil => simp
    | cons b l' =>
      simpa using List.Sublist.cons₂ b (ih l')

/-- Helper: flattening a single-element value list is the identity on its
scalar list. -/
theorem flattenValues_singleton (xs : List BlsScalar) :
    flattenValues [⟨xs⟩] = xs := by
  simp [flattenValues]

end HelperLemmas

section ClaimTheorems

variable {σ χ ε PK VK CK OK Pf PP τ : Type}

/-- Claim C5: the conversion of a domain value into a `PublicInputValue` is a
total pure function with no error path (it is a plain Lean function, mirroring
the infallible Rust `From` impls), and the resulting scalar sequence has
length 1 when converting a base-field scalar, length 1 when converting an
embedded-curve scalar (after its canonical embedding into the base field),
and exactly 2 when converting an embedded-curve affine point, with the
x-coordinate first and the y-coordinate second. -/
theorem C5_public_input_encoding :
    (∀ s : BlsScalar, (pivFromBlsScalar s).scalars.length = 1) ∧
    (∀ j : JubJubScalar, (pivFromJubJubScalar j).scalars.length = 1 ∧
      (pivFromJubJubScalar j).scalars = [jubjubToBls j]) ∧
    (∀ p : JubJubAffine, (pivFromJubJubAffine p).scalars.length = 2 ∧
      (pivFromJubJubAffine p).scalars[0]? = some p.get_x ∧
      (pivFromJubJubAffine p).scalars[1]? = some p.get_y) :=
  ⟨fun _ => rfl, fun _ => ⟨rfl, rfl⟩, fun _ => ⟨rfl, rfl, rfl⟩⟩

/-- Claim C3 (amended): for every list of public-input values and every
position list whose entries are *pairwise distinct* and all strictly less
than `TRIM_SIZE`, `build_pi` returns (without panicking) a vector of length
exactly `TRIM_SIZE` that holds zero at every index not hit by the scatter,
and holds `-v` at index `p` for each pair `(v, p)` formed by zipping the
flattened values with the positions in lockstep.  (The distinctness
hypothesis is forced by the counterexample: with a repeated position the
later write overwrites the earlier one.) -/
theorem C3_build_pi_negated_scatter (trimSize : Nat)
    (values : List PublicInputValue) (positions : List Nat)
    (hbound : ∀ p ∈ positions, p < trimSize)
    (hnodup : positions.Nodup) :
    ∃ v, build_pi trimSize values positions = some v ∧
      v.length = trimSize ∧
      (∀ i, i < trimSize →
        i ∉ ((flattenValues values).zip positions).map Prod.snd →
        v[i]? = some 0) ∧
      ∀ vp ∈ (flattenValues values).zip positions, v[vp.2]? = some (-vp.1) := by
  have hb : ∀ vp ∈ (flattenValues values).zip positions,
      vp.2 < (List.replicate trimSize (0 : BlsScalar)).length := by
    intro vp hvp
    rw [List.length_replicate]
    exact hbound vp.2 (List.of_mem_zip hvp).2
  have hnd : (((flattenValues values).zip positions).map Prod.snd).Nodup :=
    List.Nodup.sublist (map_snd_zip_sublist _ _) hnodup
  obtain ⟨v, hv, hval⟩ :=
    scatter_value_of_nodup ((flattenValues values).zip positions)
      (List.replicate trimSize (0 : BlsScalar)) hb hnd
  obtain ⟨w, hw, hwlen, hwuntouched⟩ :=
    scatter_some_of_bounds ((flattenValues values).zip positions)
      (List.replicate trimSize (0 : BlsScalar)) hb
  have hvw : v = w := by rw [hv] at hw; exact Option.some_injective _ hw
  refine ⟨v, hv, ?_, ?_, hval⟩
  · rw [hvw, hwlen, List.length_replicate]
  · intro i hi hnot
    rw [hvw, hwuntouched i hnot, List.getElem?_replicate_of_lt hi]

/-- Counterexample to claim C3 as stated: with values `[1]`, `[2]` and the
(bounded but repeated) position list `[0, 0]` at `TRIM_SIZE = 1`, the pair
`(1, 0)` is among the zipped value/position pairs, yet the resulting vector
holds `-2` at index 0, not `-1`: the later write of the lockstep scatter
overwrites the earlier one. -/
theorem C3_counterexample :
    (∀ p ∈ ([0, 0] : List Nat), p < 1) ∧
    ((1 : BlsScalar), (0 : Nat)) ∈ (flattenValues [⟨[1]⟩, ⟨[2]⟩]).zip [0, 0] ∧
    build_pi 1 [⟨[1]⟩, ⟨[2]⟩] [0, 0] = some [-2] ∧
    (-(2 : BlsScalar)) ≠ -1 := by
  refine ⟨by decide, by decide, by decide, by decide⟩

/-- Witness for C3: a concrete run of the amended statement with one value
per distinct position. -/
theorem C3_witness :
    ∃ v, build_pi 3 [⟨[1]⟩, ⟨[2]⟩] [2, 0] = some v ∧
      v.length = 3 ∧
      (∀ i, i < 3 →
        i ∉ ((flattenValues [⟨[1]⟩, ⟨[2]⟩]).zip [2, 0]).map Prod.snd →
        v[i]? = some 0) ∧
      ∀ vp ∈ (flattenValues [⟨[1]⟩, ⟨[2]⟩]).zip [2, 0], v[vp.2]? = some (-vp.1) :=
  C3_build_pi_negated_scatter 3 [⟨[1]⟩, ⟨[2]⟩] [2, 0] (by decide) (by decide)

/-- Claim C9: when the number of flattened scalars differs from the number
of positions, `build_pi` silently truncates to the shorter of the two
sequences: the unpaired excess is ignored, the call still returns normally
(no panic arises from the mismatch itself, provided the paired positions
are in bounds), the result coincides with the one obtained from the
truncated, length-matched inputs, and every vector entry not hit by a
paired position stays zero. -/
theorem C9_build_pi_truncates (trimSize : Nat)
    (values : List PublicInputValue) (positions : List Nat)
    (hmismatch : (flattenValues values).length ≠ positions.length)
    (hbound : ∀ vp ∈ (flattenValues values).zip positions, vp.2 < trimSize) :
    ∃ v, build_pi trimSize values positions = some v ∧
      v.length = trimSize ∧
      build_pi trimSize values positions =
        build_pi trimSize
          [⟨(flattenValues values).take
            (min (flattenValues values).length positions.length)⟩]
          (positions.take (min (flattenValues values).length positions.length)) ∧
      ∀ i, i < trimSize →
        i ∉ ((flattenValues values).zip positions).map Prod.snd →
        v[i]? = some 0 := by
  have hb : ∀ vp ∈ (flattenValues values).zip positions,
      vp.2 < (List.replicate trimSize (0 : BlsScalar)).length := by
    intro vp hvp
    rw [List.length_replicate]
    exact hbound vp hvp
  obtain ⟨v, hv, hlen, huntouched⟩ :=
    scatter_some_of_bounds ((flattenValues values).zip positions)
      (List.replicate trimSize (0 : BlsScalar)) hb
  refine ⟨v, hv, by rw [hlen, List.length_replicate], ?_, ?_⟩
  · show ((flattenValues values).zip positions).foldlM scatterStep _ = _
    rw [build_pi, flattenValues_singleton, zip_take_min]
  · intro i hi hnot
    rw [huntouched i hnot, List.getElem?_replicate_of_lt hi]

/-- Witness for C9: two flattened scalars against a single position. -/
theorem C9_witness :
    ∃ v, build_pi 2 [⟨[1, 2]⟩] [0] = some v ∧
      v.length = 2 ∧
      build_pi 2 [⟨[1, 2]⟩] [0] =
        build_pi 2
          [⟨(flattenValues [⟨[1, 2]⟩]).take
            (min (flattenValues [⟨[1, 2]⟩]).length ([0] : List Nat).length)⟩]
          (([0] : List Nat).take
            (min (flattenValues [⟨[1, 2]⟩]).length ([0] : List Nat).length)) ∧
      ∀ i, i < 2 →
        i ∉ ((flattenValues [⟨[1, 2]⟩]).zip [0]).map Prod.snd →
        v[i]? = some 0 :=
  C9_build_pi_truncates 2 [⟨[1, 2]⟩] [0] (by decide) (by decide)

/-- Claim C10: `build_pi` indexes the `TRIM_SIZE`-length vector without a
bounds guard: under the precondition that every position paired with a
flattened scalar is strictly less than `TRIM_SIZE`, the out-of-bounds
branch is unreachable and `build_pi` returns normally; and for the input
with one value paired with position `1` at `TRIM_SIZE = 1`, `build_pi`
panics (returns `none`) instead of returning an error. -/
theorem C10_build_pi_panics_out_of_bounds :
    (∀ (trimSize : Nat) (values : List PublicInputValue) (positions : List Nat),
      (∀ vp ∈ (flattenValues values).zip positions, vp.2 < trimSize) →
      ∃ v, build_pi trimSize values positions = some v) ∧
    build_pi 1 [⟨[1]⟩] [1] = none := by
  constructor
  · intro trimSize values positions hbound
    obtain ⟨v, hv, -, -⟩ :=
      scatter_some_of_bounds ((flattenValues values).zip positions)
        (List.replicate trimSize (0 : BlsScalar)) (fun vp hvp => by
          rw [List.length_replicate]; exact hbound vp hvp)
    exact ⟨v, hv⟩
  · decide

/-- Witness for C10: the in-bounds part of the statement evaluated at a
concrete input. -/
theorem C10_witness : ∃ v, build_pi 2 [⟨[3]⟩] [1] = some v :=
  C10_build_pi_panics_out_of_bounds.1 2 [⟨[3]⟩] [1] (by decide)

/-- Helper: inversion of a successful `compile` run, recovering the
intermediate results of the pipeline; in particular the returned position
list is the one read from the first (prover-side) pass composer. -/
theorem compile_ok_inv {E : Extern χ ε PK VK CK OK Pf PP τ}
    {C : Circuit σ χ ε τ} {c : σ} {pub_params : PP}
    {pk : PK} {vk : VK} {pos : List Nat}
    (h : compile E C c pub_params = .ok (pk, vk, pos)) :
    ∃ ck okk c₁ cs₁ c₂ cs₂,
      E.trim pub_params C.TRIM_SIZE = .ok (ck, okk) ∧
      C.gadget c E.emptyComposer = .ok (c₁, cs₁) ∧
      E.proverPreprocess cs₁ ck = .ok (some pk) ∧
      C.gadget c₁ E.emptyComposer = .ok (c₂, cs₂) ∧
      E.verifierPreprocess cs₂ ck = .ok (some vk) ∧
      pos = E.pi_positions cs₁ := by
  unfold compile at h
  split at h
  next e heq => cases h
  next ck okk heq =>
    split at h
    next e heq2 => cases h
    next c₁ cs₁ heq2 =>
      split at h
      next e heq3 => cases h
      next pkOpt heq3 =>
        split at h
        next e heq4 => cases h
        next c₂ cs₂ heq4 =>
          split at h
          next e heq5 => cases h
          next vkOpt heq5 =>
            cases pkOpt with
            | none => simp at h
            | some pk' =>
              cases vkOpt with
              | none => simp at h
              | some vk' =>
                obtain ⟨h1, h2, h3⟩ : pk' = pk ∧ vk' = vk ∧ E.pi_positions cs₁ = pos := by
                  simpa using h
                rw [h1] at heq3
                rw [h2] at heq5
                exact ⟨ck, okk, c₁, cs₁, c₂, cs₂, heq, heq2, heq3, heq4, heq5, h3.symm⟩

/-- Claim C1 (amended): the `PublicInputPositions` entry of the triple
returned by a successful `compile` is the position list extracted from the
*first* gadget-construction pass (the prover-side Composer, queried before
preprocessing), not from the second (verifier-side) pass. -/
theorem C1_positions_from_prover_pass (E : Extern χ ε PK VK CK OK Pf PP τ)
    (C : Circuit σ χ ε τ) (c : σ) (pub_params : PP)
    (pk : PK) (vk : VK) (pos : List Nat)
    (h : compile E C c pub_params = .ok (pk, vk, pos)) :
    proverPassPositions E C c = .ok pos := by
  obtain ⟨ck, okk, c₁, cs₁, c₂, cs₂, htrim, hg, hp, hg2, hvp, hpos⟩ := compile_ok_inv h
  unfold proverPassPositions
  rw [hg, hpos]
  rfl

/-- Counterexample to claim C1 as stated: over the capabilities
`driftExtern` (whose composer state is its own position list) and the
circuit `driftCircuit` (whose gadget mutates the circuit state), `compile`
succeeds and returns position list `[0]`, the list of the first
(prover-side) pass, while the second (verifier-side) pass observes `[1]`. -/
theorem C1_counterexample :
    compile driftExtern driftCircuit 0 () = .ok ((), (), [0]) ∧
    verifierPassPositions driftExtern driftCircuit 0 = .ok [1] ∧
    ([0] : List Nat) ≠ [1] :=
  ⟨rfl, rfl, by decide⟩

/-- Witness for C1: the amended statement evaluated on the same concrete
capabilities. -/
theorem C1_witness : proverPassPositions driftExtern driftCircuit 0 = .ok [0] :=
  C1_positions_from_prover_pass driftExtern driftCircuit 0 () () () [0] rfl

/-- Claim C2: under the gadget-idempotence contract the spec imposes on
every circuit (two runs of `gadget` on freshly constructed Composers
produce the same public-input wire set, regardless of the mutation of the
circuit instance between the runs), the position list observed by the
prover-side pass of `compile` equals — same length, same order, same
indices — the position list observed by the verifier-side pass. -/
theorem C2_prover_verifier_symmetry (E : Extern χ ε PK VK CK OK Pf PP τ)
    (C : Circuit σ χ ε τ) (c : σ)
    (hsym : ∀ (s₁ s₂ : σ) (r₁ r₂ : σ × χ),
      C.gadget s₁ E.emptyComposer = .ok r₁ →
      C.gadget s₂ E.emptyComposer = .ok r₂ →
      E.pi_positions r₁.2 = E.pi_positions r₂.2)
    (l₁ l₂ : List Nat)
    (h₁ : proverPassPositions E C c = .ok l₁)
    (h₂ : verifierPassPositions E C c = .ok l₂) :
    l₁ = l₂ := by
  unfold verifierPassPositions at h₂
  split at h₂
  next e heq => cases h₂
  next c₁ cs₁ heq =>
    unfold proverPassPositions at h₁
    rw [heq] at h₁
    simp only [Except.map, Except.ok.injEq] at h₁
    cases hg2 : C.gadget c₁ E.emptyComposer with
    | error e => rw [hg2] at h₂; simp [Except.map] at h₂
    | ok r2 =>
      rw [hg2] at h₂
      simp only [Except.map, Except.ok.injEq] at h₂
      rw [← h₁, ← h₂]
      exact hsym c c₁ (c₁, cs₁) r2 heq hg2

/-- Witness for C2: on the trivial capabilities (whose composer always
reports `[0]`) the two passes agree. -/
theorem C2_witness :
    proverPassPositions trivExtern trivCircuit () = .ok [0] ∧
    verifierPassPositions trivExtern trivCircuit () = .ok [0] ∧
    ([0] : List Nat) = [0] :=
  ⟨rfl, rfl,
    C2_prover_verifier_symmetry trivExtern trivCircuit ()
      (fun _ _ _ _ _ _ => rfl) [0] [0] rfl rfl⟩

/-- Claim C4 (amended): `verify_proof` does not detect a mismatch between
the number of flattened public-input scalars and the number of positions:
its outcome on any inputs is identical to its outcome on the truncated,
length-matched inputs, so a structural mismatch is never reported as a
distinct rejection category — the only rejections are the errors
propagated from trimming and from the external verify capability. -/
theorem C4_verify_no_mismatch_detection (E : Extern χ ε PK VK CK OK Pf PP τ)
    (C : Circuit σ χ ε τ) (c : σ) (pub_params : PP) (verifier_key : VK)
    (proof : Pf) (values : List PublicInputValue) (positions : List Nat) :
    verify_proof E C c pub_params verifier_key proof values positions =
      verify_proof E C c pub_params verifier_key proof
        [⟨(flattenValues values).take
          (min (flattenValues values).length positions.length)⟩]
        (positions.take (min (flattenValues values).length positions.length)) := by
  unfold verify_proof
  rw [build_pi, build_pi, flattenValues_singleton, zip_take_min]

/-- Counterexample to claim C4 as stated: on the trivial capabilities, a
call with two flattened scalars against a single position (a structural
mismatch) completes with exactly the same outcome, `.ok ()`, as the
length-matched call on the truncated inputs — no reason category
distinguishing the mismatch is ever produced. -/
theorem C4_counterexample :
    (flattenValues [⟨[1, 2]⟩]).length ≠ ([0] : List Nat).length ∧
    verify_proof trivExtern trivCircuit () () () () [⟨[1, 2]⟩] [0] =
      verify_proof trivExtern trivCircuit () () () () [⟨[1]⟩] [0] ∧
    (flattenValues [⟨[1]⟩]).length = ([0] : List Nat).length ∧
    verify_proof trivExtern trivCircuit () () () () [⟨[1, 2]⟩] [0] = .ok () := by
  refine ⟨by decide, by decide, by decide, by decide⟩

/-- Claim C8: `verify_proof` never panics when every supplied position is
strictly below `TRIM_SIZE`: whatever the external capabilities return, it
completes with an explicit acceptance (`.ok`) or an explicit rejection
(`.err`), never with a panic. -/
theorem C8_verify_proof_no_panic (E : Extern χ ε PK VK CK OK Pf PP τ)
    (C : Circuit σ χ ε τ) (c : σ) (pub_params : PP) (verifier_key : VK)
    (proof : Pf) (values : List PublicInputValue) (positions : List Nat)
    (hbound : ∀ p ∈ positions, p < C.TRIM_SIZE) :
    verify_proof E C c pub_params verifier_key proof values positions = .ok () ∨
    ∃ e, verify_proof E C c pub_params verifier_key proof values positions =
      .err e := by
  obtain ⟨v, hv, -, -⟩ :=
    scatter_some_of_bounds ((flattenValues values).zip positions)
      (List.replicate C.TRIM_SIZE (0 : BlsScalar)) (fun vp hvp => by
        rw [List.length_replicate]
        exact hbound vp.2 (List.of_mem_zip hvp).2)
  have hpi : build_pi C.TRIM_SIZE values positions = some v := hv
  cases htrim : E.trim pub_params C.TRIM_SIZE with
  | error e =>
    right
    exact ⟨e, by simp only [verify_proof, htrim]⟩
  | ok p =>
    obtain ⟨ck, okk⟩ := p
    cases hverify : E.verify C.TRANSCRIPT_INIT verifier_key okk proof v with
    | error e =>
      right
      refine ⟨e, ?_⟩
      simp only [verify_proof, htrim, hpi, hverify]
    | ok u =>
      left
      simp only [verify_proof, htrim, hpi, hverify]

/-- Witness for C8: a concrete in-bounds call on the trivial capabilities. -/
theorem C8_witness :
    verify_proof trivExtern trivCircuit () () () () [⟨[5]⟩] [0] = .ok () ∨
    ∃ e, verify_proof trivExtern trivCircuit () () () () [⟨[5]⟩] [0] = .err e :=
  C8_verify_proof_no_panic trivExtern trivCircuit () () () () [⟨[5]⟩] [0]
    (by decide)

/-- Claim C7: `gen_proof` trims the public parameters to `TRIM_SIZE` to
obtain a committer key, runs `gadget` once against a fresh Composer on the
witness-filled circuit instance, and delegates to the external prove
capability keyed by `TRANSCRIPT_INIT` with the supplied proving key
attached; its outcome is an error exactly when trimming fails, the gadget
pass fails, or the delegated prove call fails (the final equation hands
the outcome, error or proof, straight through from `prove`). -/
theorem C7_gen_proof_pipeline (E : Extern χ ε PK VK CK OK Pf PP τ)
    (C : Circuit σ χ ε τ) (c : σ) (pub_params : PP) (prover_key : PK) :
    (∀ e, E.trim pub_params C.TRIM_SIZE = .error e →
      gen_proof E C c pub_params prover_key = .error e) ∧
    (∀ ck okk, E.trim pub_params C.TRIM_SIZE = .ok (ck, okk) →
      (∀ e, C.gadget c E.emptyComposer = .error e →
        gen_proof E C c pub_params prover_key = .error e) ∧
      (∀ c' cs, C.gadget c E.emptyComposer = .ok (c', cs) →
        gen_proof E C c pub_params prover_key =
          E.prove C.TRANSCRIPT_INIT cs prover_key ck)) := by
  refine ⟨fun e he => ?_, fun ck okk htrim => ⟨fun e he => ?_, fun c' cs hg => ?_⟩⟩
  · unfold gen_proof; rw [he]
  · unfold gen_proof; rw [htrim, he]
  · unfold gen_proof; rw [htrim, hg]

/-- Witness for C7: a full successful pipeline on the trivial capabilities. -/
theorem C7_witness : gen_proof trivExtern trivCircuit () () () = .ok () :=
  ((C7_gen_proof_pipeline trivExtern trivCircuit () () ()).2 () () rfl).2 () () rfl

/-- Claim C6: `compile` returns an error exactly when trimming fails, or a
gadget-construction pass fails, or a preprocessing pass fails; when every
fallible call succeeds but a preprocessing pass does not yield its key
object, `compile` panics (the `expect` calls: a fatal, non-recoverable
condition, not a recoverable `Err`); otherwise it returns the triple of
prover key, verifier key and the public-input positions (read from the
prover-pass composer). -/
theorem C6_compile_outcome_characterization (E : Extern χ ε PK VK CK OK Pf PP τ)
    (C : Circuit σ χ ε τ) (c : σ) (pub_params : PP) :
    ((∃ e, compile E C c pub_params = .err e) ↔
      (∃ e, E.trim pub_params C.TRIM_SIZE = .error e) ∨
      (∃ ck okk, E.trim pub_params C.TRIM_SIZE = .ok (ck, okk) ∧
        ((∃ e, C.gadget c E.emptyComposer = .error e) ∨
         (∃ c₁ cs₁, C.gadget c E.emptyComposer = .ok (c₁, cs₁) ∧
           ((∃ e, E.proverPreprocess cs₁ ck = .error e) ∨
            (∃ pkOpt, E.proverPreprocess cs₁ ck = .ok pkOpt ∧
              ((∃ e, C.gadget c₁ E.emptyComposer = .error e) ∨
               (∃ c₂ cs₂, C.gadget c₁ E.emptyComposer = .ok (c₂, cs₂) ∧
                 ∃ e, E.verifierPreprocess cs₂ ck = .error e)))))))) ∧
    ((∃ msg, compile E C c pub_params = .panicked msg) ↔
      (∃ ck okk c₁ cs₁ pkOpt c₂ cs₂ vkOpt,
        E.trim pub_params C.TRIM_SIZE = .ok (ck, okk) ∧
        C.gadget c E.emptyComposer = .ok (c₁, cs₁) ∧
        E.proverPreprocess cs₁ ck = .ok pkOpt ∧
        C.gadget c₁ E.emptyComposer = .ok (c₂, cs₂) ∧
        E.verifierPreprocess cs₂ ck = .ok vkOpt ∧
        (pkOpt = none ∨ vkOpt = none))) ∧
    (∀ pk vk pos, compile E C c pub_params = .ok (pk, vk, pos) ↔
      (∃ ck okk c₁ cs₁ c₂ cs₂,
        E.trim pub_params C.TRIM_SIZE = .ok (ck, okk) ∧
        C.gadget c E.emptyComposer = .ok (c₁, cs₁) ∧
        E.proverPreprocess cs₁ ck = .ok (some pk) ∧
        C.gadget c₁ E.emptyComposer = .ok (c₂, cs₂) ∧
        E.verifierPreprocess cs₂ ck = .ok (some vk) ∧
        pos = E.pi_positions cs₁)) := by
  cases htrim : E.trim pub_params C.TRIM_SIZE with
  | error e => refine ⟨?_, ?_, ?_⟩ <;> simp [compile, htrim]
  | ok p =>
    obtain ⟨ck, okk⟩ := p
    cases hg : C.gadget c E.emptyComposer with
    | error e => refine ⟨?_, ?_, ?_⟩ <;> simp [compile, htrim, hg]
    | ok r =>
      obtain ⟨c₁, cs₁⟩ := r
      cases hp : E.proverPreprocess cs₁ ck with
      | error e =>
        refine ⟨?_, ?_, ?_⟩ <;> simp [compile, htrim, hg, hp]
        exact ⟨c₁, cs₁, ⟨rfl, rfl⟩, Or.inl ⟨e, hp⟩⟩
      | ok pkOpt =>
        cases hg2 : C.gadget c₁ E.emptyComposer with
        | error e =>
          refine ⟨?_, ?_, ?_⟩ <;> simp [compile, htrim, hg, hp, hg2]
          exact ⟨c₁, cs₁, ⟨rfl, rfl⟩, Or.inr ⟨⟨pkOpt, hp⟩, Or.inl ⟨e, hg2⟩⟩⟩
        | ok r2 =>
          obtain ⟨c₂, cs₂⟩ := r2
          cases hvp : E.verifierPreprocess cs₂ ck with
          | error e =>
            refine ⟨?_, ?_, ?_⟩ <;> simp [compile, htrim, hg, hp, hg2, hvp]
            exact ⟨c₁, cs₁, ⟨rfl, rfl⟩,
              Or.inr ⟨⟨pkOpt, hp⟩, Or.inr ⟨c₂, cs₂, hg2, e, hvp⟩⟩⟩
          | ok vkOpt =>
            cases pkOpt with
            | none =>
              refine ⟨?_, ?_, ?_⟩ <;> simp [compile, htrim, hg, hp, hg2, hvp]
              exact ⟨c₁, cs₁, ⟨rfl, rfl⟩, none, hp, c₂, cs₂, hg2, vkOpt, hvp,
                Or.inl rfl⟩
            | some pk' =>
              cases vkOpt with
              | none =>
                refine ⟨?_, ?_, ?_⟩ <;> simp [compile, htrim, hg, hp, hg2, hvp]
                exact ⟨c₁, cs₁, ⟨rfl, rfl⟩, some pk', hp, c₂, cs₂, hg2, none, hvp,
                  Or.inr rfl⟩
              | some vk' =>
                refine ⟨?_, ?_, ?_⟩
                · simp [compile, htrim, hg, hp, hg2, hvp]
                · simp [compile, htrim, hg, hp, hg2, hvp]
                · intro pk vk pos
                  constructor
                  · intro h
                    obtain ⟨ck0, okk0, c10, cs10, c20, cs20, ht0, hg0, hp0,
                      hg20, hvp0, hpos0⟩ := compile_ok_inv h
                    rw [htrim] at ht0
                    rw [hg] at hg0
                    exact ⟨ck0, okk0, c10, cs10, c20, cs20, ht0, hg0, hp0,
                      hg20, hvp0, hpos0⟩
                  · rintro ⟨ck0, okk0, c10, cs10, c20, cs20, ht0, hg0, hp0,
                      hg20, hvp0, hpos0⟩
                    simp only [Except.ok.injEq, Prod.mk.injEq] at ht0 hg0
                    obtain ⟨hck, hokk⟩ := ht0
                    obtain ⟨hc1, hcs1⟩ := hg0
                    subst hck; subst hokk; subst hc1; subst hcs1
                    rw [hp] at hp0
                    rw [hg2] at hg20
                    simp only [Except.ok.injEq, Option.some.injEq,
                      Prod.mk.injEq] at hp0 hg20
                    obtain ⟨hc2, hcs2⟩ := hg20
                    subst hc2; subst hcs2
                    rw [hvp] at hvp0
                    simp only [Except.ok.injEq, Option.some.injEq] at hvp0
                    subst hp0; subst hvp0
                    simp only [compile, htrim, hg, hp, hg2, hvp]
                    rw [hpos0]

/-- Witness for C6: on the trivial capabilities, the ok-characterization
instantiated at the concrete successful run. -/
theorem C6_witness : compile trivExtern trivCircuit () () = .ok ((), (), [0]) :=
  ((C6_compile_outcome_characterization trivExtern trivCircuit () ()).2.2
      () () [0]).mpr
    ⟨(), (), (), (), (), (), rfl, rfl, rfl, rfl, rfl, rfl⟩

end ClaimTheorems

end Plonk
